import Mathlib

/-!
Verification development for the event-driven orchestration subsystem of the
taskAgentsService repository: the Event value object, the in-process EventBus
with per-handler queues, the MatchingService correlation tracking, the
MessageBroker bridge, the Recovery and Reassign agents, and the bounded
retention stores (EventStore, AuditService, EventBus history).

Shallow-embedding conventions used throughout:
  - JavaScript Map objects become association lists (insertion order kept,
    Map.set replaces in place) or functions with default value [].
  - Machine integers are Nat; all quantities involved are nonnegative.
  - Fallible code returns Except or pairs a result with an Option String
    exception; a some value is a thrown JS error.
  - uuidv4() calls are threaded in as explicit String arguments; freshness
    and nonemptiness of generated uuids become hypotheses where needed.
  - Wall-clock decoration strings produced by new Date().toISOString()
    (failedAt, escalatedAt, recoveredAt, reassignedAt, storedAt) and the
    constant version field are omitted from the embedded payloads; no
    verified property mentions them.
-/

/-! ## Event payload data (the data field of internal events)

The source passes plain objects as event data. The variants below are the
object shapes appearing at the new Event call sites that the claims
reference. -/

inductive EvData where
  /-- an opaque payload object -/
  | raw (s : String)
  /-- data of assignment.failed in MatchingService: data, reason, error -/
  | assignFailed (payload : EvData) (reason : String) (error : String)
  /-- data of task.escalated in RecoveryAgent.escalateTask -/
  | escalated (taskId : String) (reason : String) (requiresManualIntervention : Bool)
  /-- data of task.recovered in RecoveryAgent.initiateRecovery -/
  | recovered (taskId recoveredBy recoveryAction : String) (attemptCount : Nat)
  /-- data of task.reassigned in ReassignAgent.handleTaskReassignment -/
  | reassigned (taskId previousAssignee newAssignee reason : String)
  /-- data of reassignment.failed in ReassignAgent.handleTaskReassignment -/
  | reassignFailed (taskId reason : String)
  /-- data of matching.request.sent in MessageBroker.handleMatchingRequest -/
  | requestSent (correlationId : String)
  /-- data of matching.request.failed in MessageBroker.handleMatchingRequest:
  correlationId, error message, originalData -/
  | requestFailed (correlationId error originalData : String)
deriving DecidableEq, Repr

/-- Argument object of a new Event call at an emission site: the type tag,
the data object, the correlationId argument (none when the site does not pass
one) and the source. Generated id and timestamp are not part of the argument
object. -/
structure EMsg where
  type : String
  data : EvData
  correlationId : Option String
  source : String
deriving DecidableEq, Repr

/-! ## Event constructor (src/src/core/Event.js)

The constructor defaults each field with the JavaScript || operator, so the
empty string (and, for timestamp, 0) counts as absent. The data object is
modelled by its correlationId field (optional) plus an opaque body. -/

/-- The data object passed to the Event constructor: its correlationId field
(none models both an absent field and undefined) and the rest of the object. -/
structure EvPayloadObj where
  correlationId : Option String
  body : String
deriving DecidableEq, Repr

/-- The destructured argument object of the Event constructor. -/
structure EvArgs where
  type : String
  data : Option EvPayloadObj
  correlationId : Option String
  source : Option String
  priority : Option String
  timestamp : Option Nat
  id : Option String
deriving DecidableEq, Repr

/-- JavaScript truthiness for an optional string: undefined and the empty
string are falsy. -/
def strFalsy : Option String → Bool
  | some s => s = ""
  | none => true

/-- v || dflt for an optional string argument. -/
def jsOr (v : Option String) (dflt : String) : String :=
  match v with
  | some s => if s = "" then dflt else s
  | none => dflt

/-- The constructed Event object. -/
structure JsEvent where
  id : String
  type : String
  data : Option EvPayloadObj
  timestamp : Nat
  correlationId : String
  source : String
  priority : String
deriving DecidableEq, Repr

/-- Shallow embedding of the Event constructor. The two uuidv4() calls are
threaded in as uuidForId and uuidForCid; Date.now() as now.
  id            := id || uuidv4()
  timestamp     := timestamp || Date.now()
  correlationId := correlationId || (data && data.correlationId) || uuidv4()
  source        := source || "system"
  priority      := priority || "normal" -/
def mkEvent (args : EvArgs) (uuidForId uuidForCid : String) (now : Nat) : JsEvent :=
  { id := jsOr args.id uuidForId
    type := args.type
    data := args.data
    timestamp := match args.timestamp with
      | some n => if n = 0 then now else n
      | none => now
    correlationId :=
      jsOr args.correlationId (jsOr (args.data.bind (fun d => d.correlationId)) uuidForCid)
    source := jsOr args.source "system"
    priority := jsOr args.priority "normal" }

/-! ## EventBus (src/src/core/EventBus.js)

Bus-level events. The handler.error variant nests the original event, since
safeExecuteHandler embeds the whole failing event in the error event data. -/

inductive BusEv where
  /-- an ordinary event: type tag, opaque payload, correlation id -/
  | mk (type : String) (payload : String) (correlationId : String)
  /-- a handler.error event built by safeExecuteHandler: handler name, the
  original event, the error message; its correlationId is copied from the
  original event -/
  | handlerError (handlerName : String) (originalEvent : BusEv) (errMessage : String)
    (correlationId : String)
deriving DecidableEq, Repr

/-- The type tag of a bus event (event.type). -/
def BusEv.etype : BusEv → String
  | .mk t _ _ => t
  | .handlerError _ _ _ _ => "handler.error"

/-- The correlation id of a bus event (event.correlationId). -/
def BusEv.corr : BusEv → String
  | .mk _ _ c => c
  | .handlerError _ _ _ c => c

/-- A handler registration as stored in the listeners map: event type key,
display name and the private queue (the processing flag lives in the queue
machine below; behaviours live in the drain model below). -/
structure BusReg where
  etype : String
  name : String
  queue : List BusEv
deriving DecidableEq, Repr

/-- EventBus state: the listeners (flattened over the event-type keys of the
Map, keeping registration order) and the history ring buffer. -/
structure Bus where
  listeners : List BusReg
  eventHistory : List BusEv
deriving DecidableEq, Repr

/-- maxHistorySize from the EventBus constructor. -/
def maxHistorySize : Nat := 1000

/-- addToHistory: push, then shift once when the buffer exceeds the cap. -/
def addToHistory (h : List BusEv) (e : BusEv) : List BusEv :=
  let h' := h ++ [e]
  if h'.length > maxHistorySize then h'.tail else h'

/-- The argument passed to emit: either an Event instance or any other
JavaScript value (which fails the instanceof check). -/
inductive EmitArg where
  | ev (e : BusEv)
  | notAnEvent (description : String)
deriving DecidableEq, Repr

/-- Shallow embedding of EventBus.emit. A non-Event argument throws before
the history append and before any handler queue is touched; an Event is
appended to history and enqueued on every registration whose type matches. -/
def emit (bus : Bus) (arg : EmitArg) : Except String Bus :=
  match arg with
  | .notAnEvent _ => .error "EventBus.emit expects an Event instance"
  | .ev e => .ok
      { listeners := bus.listeners.map (fun r =>
          if r.etype = e.etype then { r with queue := r.queue ++ [e] } else r)
        eventHistory := addToHistory bus.eventHistory e }

/-! ### Per-handler queue machine (emit + processHandlerQueue)

One handler registration is a small state machine: emit appends to the queue
and kicks the drain; the drain loop shifts the head, awaits the handler
invocation (inFlight), and appends the finished event to the observed trace.
The Option type of inFlight reflects that the while loop awaits each
invocation before shifting the next event, so at most one invocation of this
handler is ever in flight. pushed is the ghost trace of everything emitted to
this handler, in emit order. -/

structure HQState where
  queue : List BusEv
  inFlight : Option BusEv
  processing : Bool
  observed : List BusEv
  pushed : List BusEv
deriving DecidableEq, Repr

inductive HQStep where
  /-- emit: handlerInfo.queue.push(event); processHandlerQueue sets the
  processing flag when idle -/
  | push (e : BusEv)
  /-- drain loop iteration start: event = queue.shift() -/
  | popStart
  /-- the awaited handler invocation returns (or rejects; either way the
  loop continues) -/
  | popEnd
  /-- the loop exits: queue empty, processing := false -/
  | drainDone
deriving DecidableEq, Repr

def hqInit : HQState := ⟨[], none, false, [], []⟩

/-- One scheduler step of the per-handler queue. Steps whose guard does not
hold leave the state unchanged, so hqRun ranges over every interleaving the
cooperative scheduler can produce. -/
def hqStep (s : HQState) : HQStep → HQState
  | .push e =>
      { s with queue := s.queue ++ [e], pushed := s.pushed ++ [e], processing := true }
  | .popStart =>
      match s.queue, s.inFlight, s.processing with
      | e :: rest, none, true => { s with queue := rest, inFlight := some e }
      | _, _, _ => s
  | .popEnd =>
      match s.inFlight with
      | some e => { s with inFlight := none, observed := s.observed ++ [e] }
      | none => s
  | .drainDone =>
      match s.queue, s.inFlight with
      | [], none => { s with processing := false }
      | _, _ => s

def hqRun (steps : List HQStep) : HQState :=
  steps.foldl hqStep hqInit

/-! ### Error isolation in the drain loop (safeExecuteHandler)

A handler behaviour maps an event to ok or to a thrown/rejected error
message. safeExecuteHandler never lets the error escape: it turns it into a
handler.error event (emitted asynchronously via setImmediate, modelled as
the returned emission list) and the drain continues with the next event. -/

def HandlerBehavior := BusEv → Except String Unit

/-- Shallow embedding of safeExecuteHandler: the list of events it emits for
one invocation (empty on success, one handler.error on a throw/reject). -/
def safeExecuteHandler (name : String) (behavior : HandlerBehavior) (e : BusEv) :
    List BusEv :=
  match behavior e with
  | .ok _ => []
  | .error msg => [BusEv.handlerError name e msg e.corr]

/-- Drain a full handler queue: the first component is the sequence of events
the handler is invoked on (in order), the second the handler.error events
emitted along the way. Translated from the processHandlerQueue while loop:
a failing invocation does not stop the loop. -/
def drainQueue (name : String) (behavior : HandlerBehavior) :
    List BusEv → List BusEv × List BusEv
  | [] => ([], [])
  | e :: rest =>
      (e :: (drainQueue name behavior rest).1,
       safeExecuteHandler name behavior e ++ (drainQueue name behavior rest).2)

/-! ## MatchingService (src/src/services/MatchingService.js)

pendingRequests is a Map keyed by correlationId. An entry is the object set
by requestTaskAssignment: the event data, the creation timestamp, and the
timeout handle (modelled by the timerActive flag; the entry has no reject
member). Map.set replaces an existing key in place and appends a new key at
the end, as JavaScript Map does. -/

structure MPending where
  data : EvData
  timestamp : Nat
  timerActive : Bool
deriving DecidableEq, Repr

def MState := List (String × MPending)

def mlookup : List (String × MPending) → String → Option MPending
  | [], _ => none
  | (k, v) :: rest, c => if k = c then some v else mlookup rest c

def mdelete (l : List (String × MPending)) (c : String) : List (String × MPending) :=
  l.filter (fun p => !(p.1 == c))

def minsert : List (String × MPending) → String → MPending → List (String × MPending)
  | [], c, v => [(c, v)]
  | (k, w) :: rest, c, v =>
      if k = c then (c, v) :: rest else (k, w) :: minsert rest c v

/-- requestTimeout from the MatchingService constructor (20000 ms). -/
def requestTimeout : Nat := 20000

/-- requestTaskAssignment: schedule the timeout timer, record the
PendingRequest under event.correlationId, then emit matching.request with
the same correlation id. -/
def requestTaskAssignment (s : MState) (now : Nat) (cid : String) (d : EvData) :
    MState × List EMsg :=
  (minsert s cid ⟨d, now, true⟩,
   [⟨"matching.request", d, some cid, "MatchingService"⟩])

/-- The body of the setTimeout callback in requestTaskAssignment: if the
entry is gone the callback returns immediately; otherwise it deletes the
entry first and then emits assignment.failed with reason Timeout. The
closure captures event.data, threaded in as captured (it equals the stored
entry data for every entry created by requestTaskAssignment). -/
def timeoutFire (s : MState) (cid : String) (captured : EvData) : MState × List EMsg :=
  match mlookup s cid with
  | none => (s, [])
  | some _ =>
      (mdelete s cid,
       [⟨"assignment.failed",
         .assignFailed captured "Timeout"
           ("Matching request timeout for correlation: " ++ cid),
         some cid, "MatchingService"⟩])

/-- handleMatchingResponse: a falsy correlation id or an unknown correlation
id is dropped; otherwise the timer is cleared, the entry deleted, and
task.assigned emitted with the response payload and the correlation id. -/
def handleMatchingResponse (s : MState) (cid : String) (responseData : EvData) :
    MState × List EMsg :=
  if cid = "" then (s, [])
  else
    match mlookup s cid with
    | none => (s, [])
    | some _ =>
        (mdelete s cid,
         [⟨"task.assigned", responseData, some cid, "MatchingService"⟩])

/-- handleRequestFailed: event.data carries the correlationId and the error;
an unknown correlation id is dropped; otherwise the timer is cleared, the
entry deleted, and assignment.failed emitted with the original payload. -/
def handleRequestFailed (s : MState) (cid : String) (err : String) :
    MState × List EMsg :=
  match mlookup s cid with
  | none => (s, [])
  | some p =>
      (mdelete s cid,
       [⟨"assignment.failed", .assignFailed p.data "Matching request failed" err,
         some cid, "MatchingService"⟩])

/-- The external stimuli that drive the MatchingService state: a new
assignment request, an inbound matching.response, an inbound
matching.request.failed, and the expiry of a scheduled timeout timer. -/
inductive MAct where
  | request (now : Nat) (cid : String) (d : EvData)
  | response (cid : String) (d : EvData)
  | reqFailed (cid : String) (err : String)
  | timerFire (cid : String) (captured : EvData)
deriving DecidableEq, Repr

def mstep (s : MState) : MAct → MState × List EMsg
  | .request now cid d => requestTaskAssignment s now cid d
  | .response cid d => handleMatchingResponse s cid d
  | .reqFailed cid err => handleRequestFailed s cid err
  | .timerFire cid captured => timeoutFire s cid captured

/-- Run a sequence of stimuli, accumulating every emitted event in order. -/
def mrun (s : MState) : List MAct → MState × List EMsg
  | [] => (s, [])
  | a :: rest =>
      ((mrun (mstep s a).1 rest).1,
       (mstep s a).2 ++ (mrun (mstep s a).1 rest).2)

/-- A terminal event for a correlation id: task.assigned or assignment.failed
carrying exactly that correlation id. -/
def isTerminalFor (cid : String) (m : EMsg) : Bool :=
  (m.type == "task.assigned" || m.type == "assignment.failed")
    && m.correlationId == some cid

/-- The stimuli that can resolve a pending entry for cid: a reply, a failure
event, or the timer expiry. A reply with an empty correlation id is dropped
by the falsy-correlation guard, so it only counts when cid is nonempty. -/
def resolves (cid : String) : MAct → Bool
  | .response c _ => c == cid
  | .reqFailed c _ => c == cid
  | .timerFire c _ => c == cid
  | .request _ _ _ => false

/-- Whether an action records a new PendingRequest under cid. -/
def requestsFor (cid : String) : MAct → Bool
  | .request _ c _ => c == cid
  | _ => false

/-- Periodic sweep. An entry is expired when now - timestamp > requestTimeout.
The source loop does, per expired entry: remember the key, clearTimeout, then
call request.reject(...). Entries created by requestTaskAssignment are
objects with only timeoutId, data and timestamp fields, so request.reject is
undefined and the call throws a TypeError out of the loop; the deletion loop
afterwards is never reached. The Option String component is the thrown
exception. -/
def cleanupExpiredRequests (now : Nat) :
    List (String × MPending) → List (String × MPending) × Option String
  | [] => ([], none)
  | (k, p) :: rest =>
      if p.timestamp + requestTimeout < now then
        ((k, { p with timerActive := false }) :: rest,
         some "TypeError: request.reject is not a function")
      else
        let (rest', exc) := cleanupExpiredRequests now rest
        ((k, p) :: rest', exc)

/-! ## RecoveryAgent (src/src/agents/RecoveryAgent.js)

recoveryAttempts is a Map taskId → attempt count. The awaited call
this.matchingService.requestTaskRecovery(...) is modelled by its outcome: in
the deployed system requestTaskRecovery is an async function with no return
value, so reading recoveryResult.success throws a TypeError, which is the
thrown case; the success and failure cases model a recovery result object
with a success flag, as the agent code destructures it. -/

inductive ROutcome where
  | success (assignedUserId : String) (action : String)
  | failure (reason : String)
  | thrown (msg : String)
deriving DecidableEq, Repr

def RState := List (String × Nat)

def rget : List (String × Nat) → String → Nat
  | [], _ => 0
  | (k, v) :: rest, t => if k = t then v else rget rest t

def rset : List (String × Nat) → String → Nat → List (String × Nat)
  | [], t, n => [(t, n)]
  | (k, v) :: rest, t, n =>
      if k = t then (t, n) :: rest else (k, v) :: rset rest t n

def rdel (l : List (String × Nat)) (t : String) : List (String × Nat) :=
  l.filter (fun p => !(p.1 == t))

/-- maxRecoveryAttempts from the RecoveryAgent constructor. -/
def maxRecoveryAttempts : Nat := 3

/-- The fixed non-recoverable reason list in shouldAttemptRecovery. -/
def nonRecoverableReasons : List String :=
  ["invalid_form_data", "malformed_request", "authentication_failure"]

/-- incrementRecoveryAttempt. -/
def incrementRecoveryAttempt (s : RState) (taskId : String) : RState :=
  rset s taskId (rget s taskId + 1)

/-- escalateTask: clear the attempt counter, then emit task.escalated. The
emission site passes no correlationId. -/
def escalateTask (s : RState) (taskId reason : String) : RState × List EMsg :=
  (rdel s taskId,
   [⟨"task.escalated", .escalated taskId reason true, none, "RecoveryAgent"⟩])

/-- initiateRecovery, with the awaited recovery call outcome threaded in.
At the cap on entry it escalates with reason max_recovery_attempts_exceeded;
otherwise it increments the counter and then, on a successful outcome,
clears the counter and emits task.recovered; on a failed outcome (or a
throw, handled by the catch block) it escalates with the outcome reason
(respectively the error message) exactly when the incremented count reaches
the cap, and otherwise emits nothing. -/
def initiateRecovery (s : RState) (taskId : String) (outcome : ROutcome) :
    RState × List EMsg :=
  let attemptCount := rget s taskId
  if attemptCount ≥ maxRecoveryAttempts then
    escalateTask s taskId "max_recovery_attempts_exceeded"
  else
    let s1 := incrementRecoveryAttempt s taskId
    match outcome with
    | .success uid act =>
        (rdel s1 taskId,
         [⟨"task.recovered", .recovered taskId uid act (attemptCount + 1),
           none, "RecoveryAgent"⟩])
    | .failure r =>
        if attemptCount + 1 ≥ maxRecoveryAttempts then escalateTask s1 taskId r
        else (s1, [])
    | .thrown m =>
        if attemptCount + 1 ≥ maxRecoveryAttempts then escalateTask s1 taskId m
        else (s1, [])

/-- shouldAttemptRecovery. -/
def shouldAttemptRecovery (s : RState) (taskId reason : String) : Bool :=
  if rget s taskId ≥ maxRecoveryAttempts then false
  else !(nonRecoverableReasons.contains reason)

/-- handleAssignmentFailure for an assignment.failed event carrying formId
and reason, with the recovery call outcome threaded in. -/
def handleAssignmentFailure (s : RState) (formId reason : String)
    (outcome : ROutcome) : RState × List EMsg :=
  if shouldAttemptRecovery s formId reason then
    initiateRecovery s formId outcome
  else
    escalateTask s formId "max_recovery_attempts_exceeded"

/-! ## ReassignAgent (src/unnamed/part_005)

handleTaskReassignment awaits
this.matchingService.requestTaskReassignment(taskData). none models the
value the deployed call resolves to (undefined: requestTaskReassignment
returns nothing), in which case reading reassignmentResult.success throws
and the catch block only logs, emitting no event. some models a result
object with a success flag, as the handler destructures it. -/

structure ReassignmentResult where
  success : Bool
  assignedUserId : String
  reason : String
deriving DecidableEq, Repr

/-- handleTaskReassignment on a task.reassign.requested event whose data
carries taskId, currentAssignee and reason, with correlation id cid. -/
def handleTaskReassignment (taskId currentAssignee reason : String) (cid : String)
    (callResult : Option ReassignmentResult) : List EMsg :=
  match callResult with
  | none => []
  | some res =>
      if res.success then
        [⟨"task.reassigned",
          .reassigned taskId currentAssignee res.assignedUserId reason,
          some cid, "ReassignAgent"⟩]
      else
        [⟨"reassignment.failed", .reassignFailed taskId res.reason,
          some cid, "ReassignAgent"⟩]

/-! ## MessageBroker (src/unnamed/part_003) and RabbitMQConnection.publish
(src/src/events/connection.js)

connection.publish merges the caller options over defaultOptions; the caller
options of handleMatchingRequest carry no persistent key, so the message
keeps persistent := true from the defaults. The transport itself is
abstracted by an Option String: none means channel.publish returned, some e
means the awaited publish (or channel creation) threw e. -/

structure PublishedMsg where
  exchange : String
  routingKey : String
  body : String
  persistent : Bool
  correlationId : Option String
  replyTo : Option String
  messageId : Option String
deriving DecidableEq, Repr

/-- The message built by RabbitMQConnection.publish for the given exchange,
routing key, content and caller options. -/
def rabbitPublish (exchangeName routingKey : String) (content : String)
    (optCid optReplyTo optMsgId : Option String) : PublishedMsg :=
  { exchange := exchangeName
    routingKey := routingKey
    body := content
    persistent := true
    correlationId := optCid
    replyTo := optReplyTo
    messageId := optMsgId }

/-- handleMatchingRequest: publish the event data on the matching request
queue tagged with the correlation id and the reply queue; on success emit
matching.request.sent; on any throw out of publishToQueue (not connected, or
the transport throwing) the catch block emits matching.request.failed with
the error message and the original payload. The function itself never
throws: its result type has no exception component. -/
def handleMatchingRequest (isConnected : Bool) (transportError : Option String)
    (cid : String) (dat : String) : List PublishedMsg × List EMsg :=
  if isConnected = false then
    ([], [⟨"matching.request.failed",
           .requestFailed cid "MessageBroker not connected to RabbitMQ" dat,
           some cid, "MessageBroker"⟩])
  else
    match transportError with
    | some err =>
        ([], [⟨"matching.request.failed", .requestFailed cid err dat,
               some cid, "MessageBroker"⟩])
    | none =>
        ([rabbitPublish "" "matching.request.queue" dat
            (some cid) (some "assign.agent.reply.queue") (some cid)],
         [⟨"matching.request.sent", .requestSent cid, some cid, "MessageBroker"⟩])

/-! ## EventStore (src/src/core/EventStore.js) and AuditService
(src/src/services/AuditService.js)

The EventStore keeps every stored event in order plus two indexes, Maps
modelled as functions with default []. cleanupOldEvents drops the oldest
overflow from the main array and erases each removed event from its two
index lists by id (findIndex + splice removes the first entry with that
id; the has-check and the delete-of-empty-key are invisible in the
default-[] model). -/

structure SEv where
  id : String
  type : String
  correlationId : String
  payload : String
deriving DecidableEq, Repr

structure ESState where
  events : List SEv
  byType : String → List SEv
  byCorr : String → List SEv

def esInit : ESState := ⟨[], fun _ => [], fun _ => []⟩

/-- maxEvents from the EventStore constructor. -/
def maxEvents : Nat := 10000

/-- Remove the first list element with the given id (findIndex by id, then
splice the single entry out). -/
def eraseFirstById : List SEv → String → List SEv
  | [], _ => []
  | x :: xs, i => if x.id = i then xs else x :: eraseFirstById xs i

/-- Erase one removed event from both indexes, as the cleanup loop body
does; the correlation index is only touched when event.correlationId is
truthy. -/
def removeFromIndexes (s : ESState) (e : SEv) : ESState :=
  { s with
    byType := fun t =>
      if t = e.type then eraseFirstById (s.byType t) e.id else s.byType t
    byCorr :=
      if e.correlationId = "" then s.byCorr
      else fun c =>
        if c = e.correlationId then eraseFirstById (s.byCorr c) e.id else s.byCorr c }

/-- cleanupOldEvents: nothing to do at or below the cap; above it, splice
the oldest overflow off the front and fix both indexes for each removed
event. -/
def cleanupOldEvents (s : ESState) : ESState :=
  if s.events.length ≤ maxEvents then s
  else
    let k := s.events.length - maxEvents
    let removed := s.events.take k
    removed.foldl removeFromIndexes { s with events := s.events.drop k }

/-- The body of store before the cleanup call: append the event to the main
array, push it onto its type index and (when its correlationId is truthy)
its correlation index. -/
def storePush (s : ESState) (e : SEv) : ESState :=
  { events := s.events ++ [e]
    byType := fun t => if t = e.type then s.byType t ++ [e] else s.byType t
    byCorr :=
      if e.correlationId = "" then s.byCorr
      else fun c => if c = e.correlationId then s.byCorr c ++ [e] else s.byCorr c }

/-- store: push the event and its index entries, then run cleanupOldEvents. -/
def estore (s : ESState) (e : SEv) : ESState :=
  cleanupOldEvents (storePush s e)

/-- maxLogs from the AuditService constructor. -/
def maxLogs : Nat := 5000

/-- cleanupOldLogs: splice the oldest overflow off the front of the audit
trail. -/
def cleanupOldLogs (logs : List String) : List String :=
  if logs.length ≤ maxLogs then logs
  else logs.drop (logs.length - maxLogs)

/-- audit: a stopped service records nothing; an active one pushes the entry
and runs cleanupOldLogs. Entries are opaque here. -/
def audit (isActive : Bool) (logs : List String) (entry : String) : List String :=
  if isActive then cleanupOldLogs (logs ++ [entry]) else logs

/-- The audit trail after a sequence of audit calls, each tagged with the
isActive flag in force at that call. -/
def auditRun (calls : List (Bool × String)) : List String :=
  calls.foldl (fun logs c => audit c.1 logs c.2) []

/-- The entries recorded while the service was active, in order. -/
def activeEntries (calls : List (Bool × String)) : List String :=
  (calls.filter (fun c => c.1)).map (fun c => c.2)

/-! ## Theorems -/

/-- helper: a falsy optional string defaults. -/
theorem jsOr_of_falsy (v : Option String) (d : String) (h : strFalsy v = true) :
    jsOr v d = d := by
  cases v with
  | none => rfl
  | some s =>
      simp only [strFalsy, decide_eq_true_eq] at h
      simp [jsOr, h]

/-- helper: a truthy string wins over the default. -/
theorem jsOr_of_truthy (s d : String) (h : s ≠ "") : jsOr (some s) d = s := by
  simp [jsOr, h]

/-- C10: emitting anything that is not an Event instance throws the
synchronous error "EventBus.emit expects an Event instance" to the caller;
the error branch precedes the history append and the handler dispatch, so
no handler queue and no history entry is touched. -/
theorem emit_rejects_non_event (bus : Bus) (raw : String) :
    emit bus (.notAnEvent raw) = .error "EventBus.emit expects an Event instance" := by
  rfl

/-- C8: an Event constructed without a supplied id and correlationId (and
whose payload carries no truthy correlationId) gets a nonempty generated id
and correlationId, and two such instances built from fresh uuids have
distinct ids and distinct correlationIds; when no correlationId is supplied
but the payload object carries a truthy correlationId, the constructed Event
inherits it. -/
theorem event_ids_generated_nonempty_distinct
    (a1 a2 a3 : EvArgs) (u1 u2 u3 u4 u5 u6 : String) (n1 n2 n3 : Nat) (c : String)
    (h1i : strFalsy a1.id = true) (h1c : strFalsy a1.correlationId = true)
    (h1d : strFalsy (a1.data.bind (fun d => d.correlationId)) = true)
    (h2i : strFalsy a2.id = true) (h2c : strFalsy a2.correlationId = true)
    (h2d : strFalsy (a2.data.bind (fun d => d.correlationId)) = true)
    (hu1 : u1 ≠ "") (hu2 : u2 ≠ "") (hu3 : u3 ≠ "") (hu4 : u4 ≠ "")
    (hid : u1 ≠ u3) (hcid : u2 ≠ u4)
    (h3c : strFalsy a3.correlationId = true)
    (h3d : a3.data.bind (fun d => d.correlationId) = some c) (hc : c ≠ "") :
    (mkEvent a1 u1 u2 n1).id ≠ "" ∧ (mkEvent a1 u1 u2 n1).correlationId ≠ "" ∧
    (mkEvent a2 u3 u4 n2).id ≠ "" ∧ (mkEvent a2 u3 u4 n2).correlationId ≠ "" ∧
    (mkEvent a1 u1 u2 n1).id ≠ (mkEvent a2 u3 u4 n2).id ∧
    (mkEvent a1 u1 u2 n1).correlationId ≠ (mkEvent a2 u3 u4 n2).correlationId ∧
    (mkEvent a3 u5 u6 n3).correlationId = c := by
  simp only [mkEvent]
  rw [jsOr_of_falsy _ _ h1i, jsOr_of_falsy _ _ h2i,
      jsOr_of_falsy _ _ h1c, jsOr_of_falsy _ _ h2c,
      jsOr_of_falsy _ _ h1d, jsOr_of_falsy _ _ h2d,
      jsOr_of_falsy _ _ h3c, h3d, jsOr_of_truthy _ _ hc]
  exact ⟨hu1, hu2, hu3, hu4, hid, hcid, rfl⟩

/-- C8 witness: concrete instantiation with two fresh uuid pairs and a
payload-supplied correlation id. -/
theorem event_ids_generated_nonempty_distinct_witness :
    (mkEvent ⟨"form.submitted", none, none, none, none, none, none⟩ "id-1" "cid-1" 5).id ≠ "" ∧
    (mkEvent ⟨"form.submitted", none, none, none, none, none, none⟩ "id-1" "cid-1" 5).correlationId ≠ "" ∧
    (mkEvent ⟨"task.assigned", none, none, none, none, none, none⟩ "id-2" "cid-2" 6).id ≠ "" ∧
    (mkEvent ⟨"task.assigned", none, none, none, none, none, none⟩ "id-2" "cid-2" 6).correlationId ≠ "" ∧
    (mkEvent ⟨"form.submitted", none, none, none, none, none, none⟩ "id-1" "cid-1" 5).id ≠
      (mkEvent ⟨"task.assigned", none, none, none, none, none, none⟩ "id-2" "cid-2" 6).id ∧
    (mkEvent ⟨"form.submitted", none, none, none, none, none, none⟩ "id-1" "cid-1" 5).correlationId ≠
      (mkEvent ⟨"task.assigned", none, none, none, none, none, none⟩ "id-2" "cid-2" 6).correlationId ∧
    (mkEvent ⟨"matching.response", some ⟨some "pcid", "body"⟩, none, none, none, none, none⟩
      "id-3" "cid-3" 7).correlationId = "pcid" :=
  event_ids_generated_nonempty_distinct
    ⟨"form.submitted", none, none, none, none, none, none⟩
    ⟨"task.assigned", none, none, none, none, none, none⟩
    ⟨"matching.response", some ⟨some "pcid", "body"⟩, none, none, none, none, none⟩
    "id-1" "cid-1" "id-2" "cid-2" "id-3" "cid-3" 5 6 7 "pcid"
    rfl rfl rfl rfl rfl rfl
    (by decide) (by decide) (by decide) (by decide) (by decide) (by decide)
    rfl rfl (by decide)

/-- helper: the drain loop invokes the handler on every queued event in
order, whatever the behaviour does. -/
theorem drainQueue_processed (n : String) (b : HandlerBehavior) :
    ∀ q : List BusEv, (drainQueue n b q).1 = q := by
  intro q
  induction q with
  | nil => rfl
  | cons e rest ih => simp [drainQueue, ih]

/-- helper: the error events produced by a full drain are exactly one
handler.error per failing invocation, carrying the handler name, the
original event and the error message. -/
theorem drainQueue_errors (n : String) (b : HandlerBehavior) :
    ∀ q : List BusEv,
      (drainQueue n b q).2 = q.filterMap (fun e =>
        match b e with
        | .error msg => some (.handlerError n e msg e.corr)
        | .ok _ => none) := by
  intro q
  induction q with
  | nil => rfl
  | cons e rest ih =>
      simp only [drainQueue, List.filterMap_cons, safeExecuteHandler]
      cases b e with
      | ok _ => simpa using ih
      | error msg => simpa using ih

/-- C3: a handler that throws or rejects never crashes the bus: the failure
is caught and converted into exactly one handler.error event carrying the
handler name, the original event and the error message, the throwing handler
keeps draining its remaining queue, and any other handler registered for the
same events drains its own copy of the queue in full, independently of the
first handler failing. -/
theorem eventbus_handler_error_isolated
    (n1 n2 : String) (b1 b2 : HandlerBehavior) (q : List BusEv) :
    (drainQueue n1 b1 q).1 = q ∧
    (drainQueue n2 b2 q).1 = q ∧
    (drainQueue n1 b1 q).2 = q.filterMap (fun e =>
      match b1 e with
      | .error msg => some (.handlerError n1 e msg e.corr)
      | .ok _ => none) :=
  ⟨drainQueue_processed n1 b1 q, drainQueue_processed n2 b2 q,
   drainQueue_errors n1 b1 q⟩

/-- C5: when the awaited reassignment call resolves to a result object, the
agent emits task.reassigned (previous assignee, new assignee, reason) on
success and reassignment.failed (with the result reason) on failure. -/
theorem reassign_result_events
    (taskId currentAssignee reason cid : String)
    (callResult : Option ReassignmentResult) (res : ReassignmentResult)
    (h : callResult = some res) :
    (res.success = true →
      handleTaskReassignment taskId currentAssignee reason cid callResult =
        [⟨"task.reassigned",
          .reassigned taskId currentAssignee res.assignedUserId reason,
          some cid, "ReassignAgent"⟩]) ∧
    (res.success = false →
      handleTaskReassignment taskId currentAssignee reason cid callResult =
        [⟨"reassignment.failed", .reassignFailed taskId res.reason,
          some cid, "ReassignAgent"⟩]) := by
  subst h
  constructor
  · intro hs; simp [handleTaskReassignment, hs]
  · intro hs; simp [handleTaskReassignment, hs]

/-- C5 witness: a successful reassignment result for task T1 emits the
task.reassigned event with previous and new assignee and the reason. -/
theorem reassign_result_events_witness :
    handleTaskReassignment "T1" "user-1" "declined" "corr-1"
        (some ⟨true, "user-2", "ok"⟩) =
      [⟨"task.reassigned", .reassigned "T1" "user-1" "user-2" "declined",
        some "corr-1", "ReassignAgent"⟩] :=
  (reassign_result_events "T1" "user-1" "declined" "corr-1"
    (some ⟨true, "user-2", "ok"⟩) ⟨true, "user-2", "ok"⟩ rfl).1 rfl

/-- C7: handling a matching.request event publishes one persistent message
tagged with the correlation id and the reply queue and emits
matching.request.sent when the transport publish returns; when the broker is
not connected or the transport throws, nothing is published and exactly one
matching.request.failed event carrying the error and the original payload is
emitted; the handler itself never throws (its result type has no exception
component). -/
theorem broker_matching_request_events
    (isConnected : Bool) (transportError : Option String) (cid dat : String) :
    (isConnected = true → transportError = none →
      handleMatchingRequest isConnected transportError cid dat =
        ([rabbitPublish "" "matching.request.queue" dat
            (some cid) (some "assign.agent.reply.queue") (some cid)],
         [⟨"matching.request.sent", .requestSent cid, some cid, "MessageBroker"⟩]) ∧
      (rabbitPublish "" "matching.request.queue" dat
          (some cid) (some "assign.agent.reply.queue") (some cid)).persistent = true ∧
      (rabbitPublish "" "matching.request.queue" dat
          (some cid) (some "assign.agent.reply.queue") (some cid)).correlationId = some cid ∧
      (rabbitPublish "" "matching.request.queue" dat
          (some cid) (some "assign.agent.reply.queue") (some cid)).replyTo =
        some "assign.agent.reply.queue") ∧
    (∀ err, isConnected = true → transportError = some err →
      handleMatchingRequest isConnected transportError cid dat =
        ([], [⟨"matching.request.failed", .requestFailed cid err dat,
               some cid, "MessageBroker"⟩])) ∧
    (isConnected = false →
      handleMatchingRequest isConnected transportError cid dat =
        ([], [⟨"matching.request.failed",
               .requestFailed cid "MessageBroker not connected to RabbitMQ" dat,
               some cid, "MessageBroker"⟩])) := by
  refine ⟨?_, ?_, ?_⟩
  · intro hc ht; subst ht
    simp [handleMatchingRequest, hc, rabbitPublish]
  · intro err hc ht; subst ht
    simp [handleMatchingRequest, hc]
  · intro hc; subst hc
    simp [handleMatchingRequest]

/-- C7 witness: with the broker connected and the transport returning
normally, the concrete request publishes one persistent message and emits
the sent confirmation. -/
theorem broker_matching_request_events_witness :
    handleMatchingRequest true none "corr-9" "payload" =
      ([rabbitPublish "" "matching.request.queue" "payload"
          (some "corr-9") (some "assign.agent.reply.queue") (some "corr-9")],
       [⟨"matching.request.sent", .requestSent "corr-9", some "corr-9",
         "MessageBroker"⟩]) ∧
    (rabbitPublish "" "matching.request.queue" "payload"
        (some "corr-9") (some "assign.agent.reply.queue") (some "corr-9")).persistent = true ∧
    (rabbitPublish "" "matching.request.queue" "payload"
        (some "corr-9") (some "assign.agent.reply.queue") (some "corr-9")).correlationId =
      some "corr-9" ∧
    (rabbitPublish "" "matching.request.queue" "payload"
        (some "corr-9") (some "assign.agent.reply.queue") (some "corr-9")).replyTo =
      some "assign.agent.reply.queue" :=
  (broker_matching_request_events true none "corr-9" "payload").1 rfl rfl

/-- C6: the periodic sweep is broken in the source: for a pending map
holding one entry whose age exceeds requestTimeout, one run of
cleanupExpiredRequests clears that entry timer, then throws a TypeError
(the entries created by requestTaskAssignment have no reject member), and
the entry is still in the map afterwards: the deletion loop is never
reached. -/
theorem cleanup_expired_throws_and_keeps_entry :
    cleanupExpiredRequests 30000 [("cid-1", ⟨.raw "form", 0, true⟩)] =
      ([("cid-1", ⟨.raw "form", 0, false⟩)],
       some "TypeError: request.reject is not a function") ∧
    mlookup (cleanupExpiredRequests 30000 [("cid-1", ⟨.raw "form", 0, true⟩)]).1 "cid-1" =
      some ⟨.raw "form", 0, false⟩ := by
  constructor <;> rfl

/-- The reason string an unsuccessful recovery outcome carries: the result
reason for a failed result, the error message for a throw. -/
def failReason : ROutcome → Option String
  | .failure r => some r
  | .thrown m => some m
  | .success _ _ => none

/-- C4 counterexample: three assignment.failed events for form F1 with a
recoverable reason, each recovery attempt failing. The first two events emit
nothing; the third emits exactly one task.escalated, but its reason is the
failure reason of the third recovery attempt, not
max_recovery_attempts_exceeded as claimed. -/
theorem recovery_third_failure_reason_cex :
    (handleAssignmentFailure [] "F1" "resource_busy"
      (.failure "engine_unavailable")).2 = [] ∧
    (handleAssignmentFailure
      (handleAssignmentFailure [] "F1" "resource_busy"
        (.failure "engine_unavailable")).1
      "F1" "resource_busy" (.failure "engine_unavailable")).2 = [] ∧
    (handleAssignmentFailure
      (handleAssignmentFailure
        (handleAssignmentFailure [] "F1" "resource_busy"
          (.failure "engine_unavailable")).1
        "F1" "resource_busy" (.failure "engine_unavailable")).1
      "F1" "resource_busy" (.failure "engine_unavailable")).2 =
      [⟨"task.escalated", .escalated "F1" "engine_unavailable" true,
        none, "RecoveryAgent"⟩] ∧
    ("engine_unavailable" : String) ≠ "max_recovery_attempts_exceeded" := by
  refine ⟨rfl, rfl, rfl, by decide⟩

/-- C4 amended: for three consecutive assignment.failed events for the same
task with a recoverable reason, each with a failing recovery outcome, the
attempt counter increments on each event (1, 2, 3), the first two events
emit nothing, and the third emits exactly one task.escalated event whose
reason is the reason (or error message) of the third failed recovery
attempt; the counter is then cleared and that event emits nothing else. -/
theorem recovery_three_failures_escalates_once
    (tid r : String) (hr : nonRecoverableReasons.contains r = false)
    (o1 o2 o3 : ROutcome) (r3 : String)
    (h1 : (failReason o1).isSome = true) (h2 : (failReason o2).isSome = true)
    (h3 : failReason o3 = some r3) :
    rget (handleAssignmentFailure [] tid r o1).1 tid = 1 ∧
    (handleAssignmentFailure [] tid r o1).2 = [] ∧
    rget (handleAssignmentFailure (handleAssignmentFailure [] tid r o1).1
      tid r o2).1 tid = 2 ∧
    (handleAssignmentFailure (handleAssignmentFailure [] tid r o1).1
      tid r o2).2 = [] ∧
    (handleAssignmentFailure (handleAssignmentFailure
      (handleAssignmentFailure [] tid r o1).1 tid r o2).1 tid r o3).2 =
      [⟨"task.escalated", .escalated tid r3 true, none, "RecoveryAgent"⟩] ∧
    rget (handleAssignmentFailure (handleAssignmentFailure
      (handleAssignmentFailure [] tid r o1).1 tid r o2).1 tid r o3).1 tid = 0 := by
  have hmem : r ∉ nonRecoverableReasons := by simpa using hr
  have step1 : handleAssignmentFailure [] tid r o1 = ([(tid, 1)], []) := by
    cases o1 with
    | success u a => simp [failReason] at h1
    | failure r1 =>
        simp [handleAssignmentFailure, shouldAttemptRecovery, initiateRecovery,
          incrementRecoveryAttempt, rget, rset, maxRecoveryAttempts, hr, hmem]
    | thrown m1 =>
        simp [handleAssignmentFailure, shouldAttemptRecovery, initiateRecovery,
          incrementRecoveryAttempt, rget, rset, maxRecoveryAttempts, hr, hmem]
  have step2 : handleAssignmentFailure [(tid, 1)] tid r o2 = ([(tid, 2)], []) := by
    cases o2 with
    | success u a => simp [failReason] at h2
    | failure r2 =>
        simp [handleAssignmentFailure, shouldAttemptRecovery, initiateRecovery,
          incrementRecoveryAttempt, rget, rset, maxRecoveryAttempts, hr, hmem]
    | thrown m2 =>
        simp [handleAssignmentFailure, shouldAttemptRecovery, initiateRecovery,
          incrementRecoveryAttempt, rget, rset, maxRecoveryAttempts, hr, hmem]
  have step3 : handleAssignmentFailure [(tid, 2)] tid r o3 =
      ([], [⟨"task.escalated", .escalated tid r3 true, none, "RecoveryAgent"⟩]) := by
    cases o3 with
    | success u a => simp [failReason] at h3
    | failure rr =>
        simp [failReason] at h3
        subst h3
        simp [handleAssignmentFailure, shouldAttemptRecovery, initiateRecovery,
          incrementRecoveryAttempt, escalateTask, rget, rset, rdel,
          maxRecoveryAttempts, hr, hmem]
    | thrown mm =>
        simp [failReason] at h3
        subst h3
        simp [handleAssignmentFailure, shouldAttemptRecovery, initiateRecovery,
          incrementRecoveryAttempt, escalateTask, rget, rset, rdel,
          maxRecoveryAttempts, hr, hmem]
  rw [step1]
  rw [step2]
  rw [step3]
  simp [rget]

/-- C4 witness: concrete instantiation with three failing recovery outcomes
for form F1. -/
theorem recovery_three_failures_escalates_once_witness :
    rget (handleAssignmentFailure [] "F1" "resource_busy"
      (.failure "engine_unavailable")).1 "F1" = 1 ∧
    (handleAssignmentFailure [] "F1" "resource_busy"
      (.failure "engine_unavailable")).2 = [] ∧
    rget (handleAssignmentFailure (handleAssignmentFailure [] "F1" "resource_busy"
      (.failure "engine_unavailable")).1
      "F1" "resource_busy" (.thrown "boom")).1 "F1" = 2 ∧
    (handleAssignmentFailure (handleAssignmentFailure [] "F1" "resource_busy"
      (.failure "engine_unavailable")).1
      "F1" "resource_busy" (.thrown "boom")).2 = [] ∧
    (handleAssignmentFailure (handleAssignmentFailure
      (handleAssignmentFailure [] "F1" "resource_busy"
        (.failure "engine_unavailable")).1
      "F1" "resource_busy" (.thrown "boom")).1
      "F1" "resource_busy" (.failure "no_candidates")).2 =
      [⟨"task.escalated", .escalated "F1" "no_candidates" true,
        none, "RecoveryAgent"⟩] ∧
    rget (handleAssignmentFailure (handleAssignmentFailure
      (handleAssignmentFailure [] "F1" "resource_busy"
        (.failure "engine_unavailable")).1
      "F1" "resource_busy" (.thrown "boom")).1
      "F1" "resource_busy" (.failure "no_candidates")).1 "F1" = 0 :=
  recovery_three_failures_escalates_once "F1" "resource_busy" (by decide)
    (.failure "engine_unavailable") (.thrown "boom") (.failure "no_candidates")
    "no_candidates" rfl rfl rfl

/-- helper: one scheduler step preserves the queue accounting invariant of
a handler registration: everything pushed is either already observed, in
flight, or still queued, in emit order. -/
theorem hqStep_inv (s : HQState) (a : HQStep)
    (h : s.observed ++ s.inFlight.toList ++ s.queue = s.pushed) :
    (hqStep s a).observed ++ (hqStep s a).inFlight.toList ++ (hqStep s a).queue =
      (hqStep s a).pushed := by
  obtain ⟨q, f, pr, ob, pu⟩ := s
  simp only at h
  cases a with
  | push e =>
      simp only [hqStep]
      rw [← h]
      simp
  | popStart =>
      cases q with
      | nil => simpa [hqStep] using h
      | cons e rest =>
          cases f with
          | none =>
              cases pr with
              | true =>
                  simp only [hqStep]
                  rw [← h]
                  simp
              | false => simpa [hqStep] using h
          | some g => simpa [hqStep] using h
  | popEnd =>
      cases f with
      | none => simpa [hqStep] using h
      | some e =>
          simp only [hqStep]
          rw [← h]
          simp
  | drainDone =>
      cases q with
      | nil =>
          cases f with
          | none => simpa [hqStep] using h
          | some g => simpa [hqStep] using h
      | cons e rest => simpa [hqStep] using h

/-- helper: the invariant holds along any fold of scheduler steps. -/
theorem hqRun_inv_aux (steps : List HQStep) :
    ∀ s : HQState,
      s.observed ++ s.inFlight.toList ++ s.queue = s.pushed →
      (steps.foldl hqStep s).observed ++ (steps.foldl hqStep s).inFlight.toList ++
        (steps.foldl hqStep s).queue = (steps.foldl hqStep s).pushed := by
  induction steps with
  | nil => intro s h; simpa using h
  | cons a rest ih =>
      intro s h
      simpa [List.foldl_cons] using ih (hqStep s a) (hqStep_inv s a h)

/-- C2: under every interleaving of emits and drain-loop steps, the events a
handler has observed, the at-most-one invocation in flight, and the still
queued events concatenate to exactly the events emitted to that handler in
emit order; in particular the observed sequence is a prefix of the emit
sequence, so an event emitted earlier is always observed before one emitted
later, and the Option-typed in-flight slot reflects that the drain loop
never runs two invocations of the same handler at once. -/
theorem eventbus_handler_queue_fifo (steps : List HQStep) :
    (hqRun steps).observed ++ (hqRun steps).inFlight.toList ++ (hqRun steps).queue =
      (hqRun steps).pushed ∧
    (hqRun steps).observed =
      (hqRun steps).pushed.take (hqRun steps).observed.length := by
  have h : (hqRun steps).observed ++ (hqRun steps).inFlight.toList ++
      (hqRun steps).queue = (hqRun steps).pushed := by
    simpa [hqRun] using hqRun_inv_aux steps hqInit (by rfl)
  refine ⟨h, ?_⟩
  rw [← h, List.append_assoc]
  exact (List.take_left _ _).symm

/-- helper: deleting a key removes it from lookup. -/
theorem mlookup_mdelete_self (l : List (String × MPending)) (c : String) :
    mlookup (mdelete l c) c = none := by
  induction l with
  | nil => rfl
  | cons kv rest ih =>
      obtain ⟨k, v⟩ := kv
      by_cases hk : k = c
      · subst hk
        simpa [mdelete, List.filter_cons] using ih
      · simpa [mdelete, List.filter_cons, mlookup, hk] using ih

/-- helper: deleting one key leaves every other lookup unchanged. -/
theorem mlookup_mdelete_ne (l : List (String × MPending)) (c c' : String)
    (h : c' ≠ c) : mlookup (mdelete l c) c' = mlookup l c' := by
  induction l with
  | nil => rfl
  | cons kv rest ih =>
      obtain ⟨k, v⟩ := kv
      by_cases hk : k = c
      · subst hk
        simp [mdelete, List.filter_cons, mlookup, Ne.symm h] at ih ⊢
        exact ih
      · simp only [mdelete] at ih
        simp [mdelete, List.filter_cons, mlookup, hk, ih]

/-- helper: Map.set of one key leaves every other lookup unchanged. -/
theorem mlookup_minsert_ne (l : List (String × MPending)) (c c' : String)
    (v : MPending) (h : c' ≠ c) :
    mlookup (minsert l c v) c' = mlookup l c' := by
  induction l with
  | nil => simp [minsert, mlookup, Ne.symm h]
  | cons kv rest ih =>
      obtain ⟨k, w⟩ := kv
      by_cases hk : k = c
      · subst hk
        simp [minsert, mlookup, Ne.symm h]
      · simp [minsert, mlookup, hk, ih]

/-- helper: matching.request is not a terminal event for any correlation id. -/
theorem isTerminalFor_matching_request (cid c : String) (d : EvData) :
    isTerminalFor cid ⟨"matching.request", d, some c, "MatchingService"⟩ = false := by
  simp [isTerminalFor]

/-- helper: a terminal event for another correlation id does not count. -/
theorem isTerminalFor_other_cid (cid c t : String) (d : EvData)
    (h : c ≠ cid) :
    isTerminalFor cid ⟨t, d, some c, "MatchingService"⟩ = false := by
  simp [isTerminalFor, h]

/-- helper: a step on a state with no pending entry for cid, other than a
new request for cid, emits no terminal event for cid and leaves cid absent:
a late reply, failure event or timer expiry is a no-op. -/
theorem mstep_not_pending (cid : String) (s : MState) (a : MAct)
    (hp : mlookup s cid = none) (hr : requestsFor cid a = false) :
    mlookup (mstep s a).1 cid = none ∧
    (mstep s a).2.countP (isTerminalFor cid) = 0 := by
  cases a with
  | request now c d =>
      have hc : ¬(c = cid) := by simpa [requestsFor] using hr
      refine ⟨?_, ?_⟩
      · simpa [mstep, requestTaskAssignment]
          using (mlookup_minsert_ne s c cid ⟨d, now, true⟩ (fun hh => hc hh.symm)).trans hp
      · simp [mstep, requestTaskAssignment, List.countP_cons, isTerminalFor]
  | response c d =>
      by_cases hce : c = ""
      · simp [mstep, handleMatchingResponse, hce, hp, List.countP_nil]
      · by_cases hc : c = cid
        · subst hc
          simp [mstep, handleMatchingResponse, hce, hp, List.countP_nil]
        · cases hlc : mlookup s c with
          | none => simp [mstep, handleMatchingResponse, hce, hlc, hp]
          | some q =>
              refine ⟨?_, ?_⟩
              · simpa [mstep, handleMatchingResponse, hce, hlc]
                  using (mlookup_mdelete_ne s c cid (fun hh => hc hh.symm)).trans hp
              · simp [mstep, handleMatchingResponse, hce, hlc, List.countP_cons,
                  isTerminalFor, hc]
  | reqFailed c err =>
      by_cases hc : c = cid
      · subst hc
        simp [mstep, handleRequestFailed, hp, List.countP_nil]
      · cases hlc : mlookup s c with
        | none => simp [mstep, handleRequestFailed, hlc, hp]
        | some q =>
            refine ⟨?_, ?_⟩
            · simpa [mstep, handleRequestFailed, hlc]
                using (mlookup_mdelete_ne s c cid (fun hh => hc hh.symm)).trans hp
            · simp [mstep, handleRequestFailed, hlc, List.countP_cons,
                isTerminalFor, hc]
  | timerFire c captured =>
      by_cases hc : c = cid
      · subst hc
        simp [mstep, timeoutFire, hp, List.countP_nil]
      · cases hlc : mlookup s c with
        | none => simp [mstep, timeoutFire, hlc, hp]
        | some q =>
            refine ⟨?_, ?_⟩
            · simpa [mstep, timeoutFire, hlc]
                using (mlookup_mdelete_ne s c cid (fun hh => hc hh.symm)).trans hp
            · simp [mstep, timeoutFire, hlc, List.countP_cons,
                isTerminalFor, hc]

/-- helper: a step on a state with a pending entry for cid either resolves
it (removing the entry and emitting exactly one terminal event for cid) or
leaves the entry and emits no terminal event for cid. -/
theorem mstep_pending (cid : String) (hcid : cid ≠ "") (s : MState)
    (p : MPending) (a : MAct)
    (hp : mlookup s cid = some p) (hr : requestsFor cid a = false) :
    (resolves cid a = true →
      mlookup (mstep s a).1 cid = none ∧
      (mstep s a).2.countP (isTerminalFor cid) = 1) ∧
    (resolves cid a = false →
      mlookup (mstep s a).1 cid = some p ∧
      (mstep s a).2.countP (isTerminalFor cid) = 0) := by
  cases a with
  | request now c d =>
      have hc : ¬(c = cid) := by simpa [requestsFor] using hr
      refine ⟨fun hres => ?_, fun _ => ⟨?_, ?_⟩⟩
      · simp [resolves] at hres
      · simpa [mstep, requestTaskAssignment]
          using (mlookup_minsert_ne s c cid ⟨d, now, true⟩ (fun hh => hc hh.symm)).trans hp
      · simp [mstep, requestTaskAssignment, List.countP_cons, isTerminalFor]
  | response c d =>
      by_cases hc : c = cid
      · subst hc
        refine ⟨fun _ => ⟨?_, ?_⟩, fun hres => ?_⟩
        · simp [mstep, handleMatchingResponse, hcid, hp, mlookup_mdelete_self]
        · simp [mstep, handleMatchingResponse, hcid, hp, List.countP_cons,
            isTerminalFor]
        · simp [resolves] at hres
      · have hres : resolves cid (MAct.response c d) = false := by
          simp [resolves, hc]
        refine ⟨fun hres' => ?_, fun _ => ?_⟩
        · rw [hres] at hres'; cases hres'
        · by_cases hce : c = ""
          · simp [mstep, handleMatchingResponse, hce, hp]
          · cases hlc : mlookup s c with
            | none => simp [mstep, handleMatchingResponse, hce, hlc, hp]
            | some q =>
                refine ⟨?_, ?_⟩
                · simpa [mstep, handleMatchingResponse, hce, hlc]
                    using (mlookup_mdelete_ne s c cid (fun hh => hc hh.symm)).trans hp
                · simp [mstep, handleMatchingResponse, hce, hlc, List.countP_cons,
                    isTerminalFor, hc]
  | reqFailed c err =>
      by_cases hc : c = cid
      · subst hc
        refine ⟨fun _ => ⟨?_, ?_⟩, fun hres => ?_⟩
        · simp [mstep, handleRequestFailed, hp, mlookup_mdelete_self]
        · simp [mstep, handleRequestFailed, hp, List.countP_cons, isTerminalFor]
        · simp [resolves] at hres
      · have hres : resolves cid (MAct.reqFailed c err) = false := by
          simp [resolves, hc]
        refine ⟨fun hres' => ?_, fun _ => ?_⟩
        · rw [hres] at hres'; cases hres'
        · cases hlc : mlookup s c with
          | none => simp [mstep, handleRequestFailed, hlc, hp]
          | some q =>
              refine ⟨?_, ?_⟩
              · simpa [mstep, handleRequestFailed, hlc]
                  using (mlookup_mdelete_ne s c cid (fun hh => hc hh.symm)).trans hp
              · simp [mstep, handleRequestFailed, hlc, List.countP_cons,
                  isTerminalFor, hc]
  | timerFire c captured =>
      by_cases hc : c = cid
      · subst hc
        refine ⟨fun _ => ⟨?_, ?_⟩, fun hres => ?_⟩
        · simp [mstep, timeoutFire, hp, mlookup_mdelete_self]
        · simp [mstep, timeoutFire, hp, List.countP_cons, isTerminalFor]
        · simp [resolves] at hres
      · have hres : resolves cid (MAct.timerFire c captured) = false := by
          simp [resolves, hc]
        refine ⟨fun hres' => ?_, fun _ => ?_⟩
        · rw [hres] at hres'; cases hres'
        · cases hlc : mlookup s c with
          | none => simp [mstep, timeoutFire, hlc, hp]
          | some q =>
              refine ⟨?_, ?_⟩
              · simpa [mstep, timeoutFire, hlc]
                  using (mlookup_mdelete_ne s c cid (fun hh => hc hh.symm)).trans hp
              · simp [mstep, timeoutFire, hlc, List.countP_cons,
                  isTerminalFor, hc]

/-- helper: from a state with no pending entry for cid, a run without a new
request for cid emits no terminal event for cid and leaves cid absent. -/
theorem mrun_not_pending (cid : String) :
    ∀ acts : List MAct, ∀ s : MState,
      mlookup s cid = none → (∀ a ∈ acts, requestsFor cid a = false) →
      mlookup (mrun s acts).1 cid = none ∧
      (mrun s acts).2.countP (isTerminalFor cid) = 0 := by
  intro acts
  induction acts with
  | nil => intro s hp _; exact ⟨hp, rfl⟩
  | cons a rest ih =>
      intro s hp hnr
      have ha := mstep_not_pending cid s a hp (hnr a (by simp))
      have hrest := ih (mstep s a).1 ha.1 (fun a' ha' => hnr a' (by simp [ha']))
      refine ⟨by simpa [mrun] using hrest.1, ?_⟩
      simp [mrun, List.countP_append, ha.2, hrest.2]

/-- helper: from a state with a pending entry for cid, a run without a new
request for cid emits at most one terminal event for cid, and exactly one
(leaving cid absent) as soon as the run contains a resolver. -/
theorem mrun_pending (cid : String) (hcid : cid ≠ "") :
    ∀ acts : List MAct, ∀ s : MState, ∀ p : MPending,
      mlookup s cid = some p → (∀ a ∈ acts, requestsFor cid a = false) →
      (mrun s acts).2.countP (isTerminalFor cid) ≤ 1 ∧
      ((∃ a ∈ acts, resolves cid a = true) →
        (mrun s acts).2.countP (isTerminalFor cid) = 1 ∧
        mlookup (mrun s acts).1 cid = none) := by
  intro acts
  induction acts with
  | nil =>
      intro s p hp _
      exact ⟨by simp [mrun], by simp⟩
  | cons a rest ih =>
      intro s p hp hnr
      have hstep := mstep_pending cid hcid s p a hp (hnr a (by simp))
      by_cases hres : resolves cid a = true
      · have h1 := hstep.1 hres
        have hrest := mrun_not_pending cid rest (mstep s a).1 h1.1
          (fun a' ha' => hnr a' (by simp [ha']))
        constructor
        · simp [mrun, List.countP_append, h1.2, hrest.2]
        · intro _
          exact ⟨by simp [mrun, List.countP_append, h1.2, hrest.2],
                 by simpa [mrun] using hrest.1⟩
      · have hres' : resolves cid a = false := by
          cases hres'' : resolves cid a with
          | true => exact absurd hres'' hres
          | false => rfl
        have h0 := hstep.2 hres'
        have hrest := ih (mstep s a).1 p h0.1 (fun a' ha' => hnr a' (by simp [ha']))
        constructor
        · simp [mrun, List.countP_append, h0.2]
          exact hrest.1
        · intro hex
          have hex' : ∃ a' ∈ rest, resolves cid a' = true := by
            rcases hex with ⟨a', ha', hra'⟩
            rcases List.mem_cons.mp ha' with h | h
            · subst h; exact absurd hra' hres
            · exact ⟨a', h, hra'⟩
          have hr1 := hrest.2 hex'
          exact ⟨by simp [mrun, List.countP_append, h0.2, hr1.1],
                 by simpa [mrun] using hr1.2⟩

/-- C1: for a PendingRequest recorded under a nonempty correlation id, any
sequence of replies, failure events and timer expiries (with no second
request recorded for the same correlation id) yields at most one terminal
event (task.assigned or assignment.failed) carrying that correlation id;
as soon as the sequence contains a resolver for it (a reply, failure or the
timer expiry that the scheduled timeout guarantees), exactly one terminal
event is emitted and the map entry is gone; and any step taken once the
entry is absent emits no terminal event for that correlation id: the entry
is removed before the terminal event is emitted, so later replies, failure
events and timer expiries for it are no-ops. -/
theorem matching_pending_exactly_one_terminal
    (cid : String) (hcid : cid ≠ "") (s : MState) (p : MPending)
    (hp : mlookup s cid = some p)
    (acts : List MAct) (hnoreq : ∀ a ∈ acts, requestsFor cid a = false) :
    (mrun s acts).2.countP (isTerminalFor cid) ≤ 1 ∧
    ((∃ a ∈ acts, resolves cid a = true) →
      (mrun s acts).2.countP (isTerminalFor cid) = 1 ∧
      mlookup (mrun s acts).1 cid = none) ∧
    (∀ (s' : MState) (a : MAct), mlookup s' cid = none →
      requestsFor cid a = false →
      (mstep s' a).2.countP (isTerminalFor cid) = 0 ∧
      mlookup (mstep s' a).1 cid = none) := by
  have hmain := mrun_pending cid hcid acts s p hp hnoreq
  exact ⟨hmain.1, hmain.2,
    fun s' a hn hr => ⟨(mstep_not_pending cid s' a hn hr).2,
                       (mstep_not_pending cid s' a hn hr).1⟩⟩

/-- C1 witness: a request recorded for correlation id c1, followed by a
reply for c1 and then the (stale) timer expiry for c1: exactly one terminal
event is emitted and the duplicate resolver is a no-op. -/
theorem matching_pending_exactly_one_terminal_witness :
    (mrun [("c1", ⟨.raw "d", 0, true⟩)]
        [.response "c1" (.raw "resp"), .timerFire "c1" (.raw "d")]).2.countP
      (isTerminalFor "c1") ≤ 1 ∧
    ((∃ a ∈ ([.response "c1" (.raw "resp"), .timerFire "c1" (.raw "d")] : List MAct),
        resolves "c1" a = true) →
      (mrun [("c1", ⟨.raw "d", 0, true⟩)]
          [.response "c1" (.raw "resp"), .timerFire "c1" (.raw "d")]).2.countP
        (isTerminalFor "c1") = 1 ∧
      mlookup (mrun [("c1", ⟨.raw "d", 0, true⟩)]
          [.response "c1" (.raw "resp"), .timerFire "c1" (.raw "d")]).1 "c1" = none) ∧
    (∀ (s' : MState) (a : MAct), mlookup s' "c1" = none →
      requestsFor "c1" a = false →
      (mstep s' a).2.countP (isTerminalFor "c1") = 0 ∧
      mlookup (mstep s' a).1 "c1" = none) :=
  matching_pending_exactly_one_terminal "c1" (by decide)
    [("c1", ⟨.raw "d", 0, true⟩)] ⟨.raw "d", 0, true⟩ rfl
    [.response "c1" (.raw "resp"), .timerFire "c1" (.raw "d")] (by decide)

/-- helper: one bounded push step. Appending to the retained suffix of L and
re-trimming to the cap yields exactly the retained suffix of L ++ [e]. -/
theorem suffix_append_step {α : Type} (L : List α) (e : α) (cap : Nat)
    (hcap : 0 < cap) :
    (if (L.drop (L.length - cap) ++ [e]).length ≤ cap
     then L.drop (L.length - cap) ++ [e]
     else (L.drop (L.length - cap) ++ [e]).drop
       ((L.drop (L.length - cap) ++ [e]).length - cap)) =
    (L ++ [e]).drop ((L ++ [e]).length - cap) := by
  by_cases hlt : L.length < cap
  · have h0 : L.length - cap = 0 := by omega
    have h1 : (L ++ [e]).length - cap = 0 := by simp; omega
    have h2 : (L.drop (L.length - cap) ++ [e]).length ≤ cap := by
      simp [h0]; omega
    rw [h0, h1]
    simp only [h2, if_true, List.drop_zero, if_pos]
    simp
    intro hcontra
    exact absurd hcontra (by omega)
  · have hge : cap ≤ L.length := by omega
    have hH : (L.drop (L.length - cap)).length = cap := by simp; omega
    have hcond : ¬((L.drop (L.length - cap) ++ [e]).length ≤ cap) := by
      simp [hH]
    rw [if_neg hcond]
    have hk : (L.drop (L.length - cap) ++ [e]).length - cap = 1 := by
      simp [hH]
    rw [hk]
    have h1le : (1 : Nat) ≤ (L.drop (L.length - cap)).length := by omega
    rw [List.drop_append_of_le_length h1le, List.drop_drop]
    have h2le : (L ++ [e]).length - cap ≤ L.length := by simp; omega
    have h3 : (L ++ [e]).length - cap = 1 + (L.length - cap) := by simp; omega
    rw [h3, List.drop_append_of_le_length (by omega : 1 + (L.length - cap) ≤ L.length),
      Nat.add_comm]

/-- helper: the audit trail after any call sequence is exactly the newest
maxLogs entries recorded while the service was active. -/
theorem auditRun_suffix (calls : List (Bool × String)) :
    auditRun calls =
      (activeEntries calls).drop ((activeEntries calls).length - maxLogs) := by
  induction calls using List.reverseRecOn with
  | nil => rfl
  | append_singleton calls c ih =>
      obtain ⟨b, x⟩ := c
      have hact : activeEntries (calls ++ [(b, x)]) =
          activeEntries calls ++ (if b then [x] else []) := by
        simp [activeEntries, List.filter_append]
        cases b <;> simp
      have hrun : auditRun (calls ++ [(b, x)]) = audit b (auditRun calls) x := by
        simp [auditRun]
      cases b with
      | false => simpa [hrun, hact, audit] using ih
      | true =>
          rw [hrun, ih, hact]
          simp only [if_pos trivial]
          have := suffix_append_step (activeEntries calls) x maxLogs (by decide)
          simpa [audit, cleanupOldLogs] using this

/-- helper: on a buffer already within the cap, addToHistory trims exactly
like the bounded-suffix step. -/
theorem addToHistory_eq_trim (H : List BusEv) (e : BusEv)
    (h : H.length ≤ maxHistorySize) :
    addToHistory H e =
      if (H ++ [e]).length ≤ maxHistorySize then H ++ [e]
      else (H ++ [e]).drop ((H ++ [e]).length - maxHistorySize) := by
  simp only [addToHistory]
  by_cases hc : (H ++ [e]).length ≤ maxHistorySize
  · rw [if_pos hc, if_neg (Nat.not_lt.mpr hc)]
  · have hgt : maxHistorySize < (H ++ [e]).length := Nat.lt_of_not_le hc
    rw [if_neg hc, if_pos hgt]
    have hk : (H ++ [e]).length - maxHistorySize = 1 := by
      simp only [List.length_append, List.length_cons, List.length_nil] at hc ⊢
      omega
    rw [hk, List.drop_one]

/-- helper: the EventBus history after any emit sequence is exactly the
newest maxHistorySize events. -/
theorem history_suffix (hist : List BusEv) :
    hist.foldl addToHistory [] =
      hist.drop (hist.length - maxHistorySize) := by
  induction hist using List.reverseRecOn with
  | nil => rfl
  | append_singleton hist e ih =>
      rw [List.foldl_append, List.foldl_cons, List.foldl_nil, ih,
        addToHistory_eq_trim _ e (by simp; omega)]
      exact suffix_append_step hist e maxHistorySize (by decide)

/-- The EventStore consistency invariant relative to the full sequence L of
events ever stored: the main array holds exactly the newest maxEvents
entries, and each index lists exactly the retained events with that key, in
order. -/
def esInv (L : List SEv) (s : ESState) : Prop :=
  s.events = L.drop (L.length - maxEvents) ∧
  (∀ t, s.byType t = s.events.filter (fun x => x.type == t)) ∧
  (∀ c, c ≠ "" → s.byCorr c = s.events.filter (fun x => x.correlationId == c))

/-- helper: cleanupOldEvents keeps the indexes consistent: on overflow by
one (the only reachable overflow, since store adds one event at a time), the
single oldest event is dropped from the main array and erased from the head
of its index lists. -/
theorem cleanupOldEvents_inv (s : ESState)
    (hlen : s.events.length ≤ maxEvents + 1)
    (hbt : ∀ t, s.byType t = s.events.filter (fun x => x.type == t))
    (hbc : ∀ c, c ≠ "" → s.byCorr c =
      s.events.filter (fun x => x.correlationId == c)) :
    (cleanupOldEvents s).events = s.events.drop (s.events.length - maxEvents) ∧
    (∀ t, (cleanupOldEvents s).byType t =
      (cleanupOldEvents s).events.filter (fun x => x.type == t)) ∧
    (∀ c, c ≠ "" → (cleanupOldEvents s).byCorr c =
      (cleanupOldEvents s).events.filter (fun x => x.correlationId == c)) := by
  by_cases hle : s.events.length ≤ maxEvents
  · have h0 : s.events.length - maxEvents = 0 := by omega
    rw [cleanupOldEvents, if_pos hle]
    exact ⟨by rw [h0, List.drop_zero], hbt, hbc⟩
  · have hlen1 : s.events.length = maxEvents + 1 := by omega
    have hk : s.events.length - maxEvents = 1 := by omega
    cases hM : s.events with
    | nil => rw [hM] at hlen1; simp at hlen1
    | cons h0 R =>
        have hclean : cleanupOldEvents s =
            removeFromIndexes { s with events := R } h0 := by
          rw [cleanupOldEvents, if_neg hle, hk, hM]
          simp [List.take_one, List.drop_one]
        rw [hclean]
        have hbt0 := hbt
        have hbc0 := hbc
        refine ⟨?_, ?_, ?_⟩
        · have h1 : R.length + 1 - maxEvents = 1 := by
            rw [hM] at hk; simpa using hk
          simp [removeFromIndexes, hM, h1, List.drop_one]
        · intro t
          by_cases ht : t = h0.type
          · subst ht
            have : s.byType h0.type = h0 :: R.filter (fun x => x.type == h0.type) := by
              rw [hbt0 h0.type, hM, List.filter_cons]
              simp
            simp [removeFromIndexes, this, eraseFirstById]
          · have hne : (h0.type == t) = false :=
              beq_eq_false_iff_ne.mpr (fun hh => ht hh.symm)
            have : s.byType t = R.filter (fun x => x.type == t) := by
              rw [hbt0 t, hM, List.filter_cons]
              simp [hne]
            simp [removeFromIndexes, ht, this]
        · intro c hc
          by_cases hcor : h0.correlationId = ""
          · have hne : (h0.correlationId == c) = false :=
              beq_eq_false_iff_ne.mpr (by rw [hcor]; exact fun hh => hc hh.symm)
            have : s.byCorr c = R.filter (fun x => x.correlationId == c) := by
              rw [hbc0 c hc, hM, List.filter_cons]
              simp [hne]
            simp [removeFromIndexes, hcor, this]
          · by_cases hceq : c = h0.correlationId
            · have : s.byCorr h0.correlationId =
                  h0 :: R.filter (fun x => x.correlationId == h0.correlationId) := by
                rw [hbc0 h0.correlationId hcor, hM, List.filter_cons]
                simp
              rw [hceq]
              simp [removeFromIndexes, hcor, this, eraseFirstById]
            · have hne : (h0.correlationId == c) = false :=
                beq_eq_false_iff_ne.mpr (fun hh => hceq hh.symm)
              have : s.byCorr c = R.filter (fun x => x.correlationId == c) := by
                rw [hbc0 c hc, hM, List.filter_cons]
                simp [hne]
              simp [removeFromIndexes, hcor, hceq, this]

/-- helper: the push stage keeps both indexes equal to the filters of the
appended main array. -/
theorem storePush_inv (s : ESState) (e : SEv)
    (hbt : ∀ t, s.byType t = s.events.filter (fun x => x.type == t))
    (hbc : ∀ c, c ≠ "" → s.byCorr c =
      s.events.filter (fun x => x.correlationId == c)) :
    (storePush s e).events = s.events ++ [e] ∧
    (∀ t, (storePush s e).byType t =
      (storePush s e).events.filter (fun x => x.type == t)) ∧
    (∀ c, c ≠ "" → (storePush s e).byCorr c =
      (storePush s e).events.filter (fun x => x.correlationId == c)) := by
  refine ⟨rfl, ?_, ?_⟩
  · intro t
    by_cases ht : t = e.type
    · subst ht
      simp [storePush, List.filter_append, hbt]
    · have hne : (e.type == t) = false :=
        beq_eq_false_iff_ne.mpr (fun hh => ht hh.symm)
      simp [storePush, List.filter_append, hbt, ht, hne]
  · intro c hc
    by_cases hcor : e.correlationId = ""
    · have hne : (e.correlationId == c) = false :=
        beq_eq_false_iff_ne.mpr (by rw [hcor]; exact fun hh => hc hh.symm)
      simp [storePush, List.filter_append, hbc c hc, hcor, hne, Ne.symm hc]
    · by_cases hceq : c = e.correlationId
      · rw [hceq]
        simp [storePush, List.filter_append, hbc e.correlationId hcor, hcor]
      · have hne : (e.correlationId == c) = false :=
          beq_eq_false_iff_ne.mpr (fun hh => hceq hh.symm)
        simp [storePush, List.filter_append, hbc c hc, hcor, hceq, hne]

/-- helper: one store step preserves the EventStore invariant. -/
theorem estore_inv (L : List SEv) (e : SEv) (s : ESState) (hinv : esInv L s) :
    esInv (L ++ [e]) (estore s e) := by
  obtain ⟨hev, hbt, hbc⟩ := hinv
  obtain ⟨hp0, hp1, hp2⟩ := storePush_inv s e hbt hbc
  have hlen1 : (storePush s e).events.length ≤ maxEvents + 1 := by
    rw [hp0, hev]
    simp
    omega
  obtain ⟨hc0, hc1, hc2⟩ := cleanupOldEvents_inv (storePush s e) hlen1 hp1 hp2
  have hevents : (estore s e).events =
      (L ++ [e]).drop ((L ++ [e]).length - maxEvents) := by
    have hstep := suffix_append_step L e maxEvents (by decide)
    rw [estore, hc0, hp0, hev]
    rw [← hstep]
    by_cases hx : (L.drop (L.length - maxEvents) ++ [e]).length ≤ maxEvents
    · rw [if_pos hx]
      have h0 : (L.drop (L.length - maxEvents) ++ [e]).length - maxEvents = 0 := by
        omega
      rw [h0, List.drop_zero]
    · rw [if_neg hx]
  exact ⟨hevents, fun t => by rw [estore] at hevents ⊢; exact hc1 t,
         fun c hc => by rw [estore] at hevents ⊢; exact hc2 c hc⟩

/-- helper: the invariant holds after any sequence of stores from the empty
store. -/
theorem estore_fold_inv (L : List SEv) :
    esInv L (L.foldl estore esInit) := by
  induction L using List.reverseRecOn with
  | nil => exact ⟨rfl, fun t => rfl, fun c hc => rfl⟩
  | append_singleton L e ih =>
      rw [List.foldl_append, List.foldl_cons, List.foldl_nil]
      exact estore_inv L e _ ih

/-- C9: after any sequence of stores, the EventStore main array never
exceeds maxEvents and holds exactly the newest events (oldest evicted
first), with the by-type and by-correlation indexes equal to the filters of
the retained array; the AuditService trail never exceeds maxLogs and holds
exactly the newest entries recorded while active; the EventBus history never
exceeds maxHistorySize and holds exactly the newest events. -/
theorem retention_caps_fifo_eviction
    (L : List SEv) (calls : List (Bool × String)) (hist : List BusEv) :
    (L.foldl estore esInit).events.length ≤ maxEvents ∧
    (L.foldl estore esInit).events = L.drop (L.length - maxEvents) ∧
    (∀ t, (L.foldl estore esInit).byType t =
      (L.foldl estore esInit).events.filter (fun x => x.type == t)) ∧
    (∀ c, c ≠ "" → (L.foldl estore esInit).byCorr c =
      (L.foldl estore esInit).events.filter (fun x => x.correlationId == c)) ∧
    (auditRun calls).length ≤ maxLogs ∧
    auditRun calls =
      (activeEntries calls).drop ((activeEntries calls).length - maxLogs) ∧
    (hist.foldl addToHistory []).length ≤ maxHistorySize ∧
    hist.foldl addToHistory [] = hist.drop (hist.length - maxHistorySize) := by
  obtain ⟨hev, hbt, hbc⟩ := estore_fold_inv L
  refine ⟨?_, hev, hbt, hbc, ?_, auditRun_suffix calls, ?_, history_suffix hist⟩
  · rw [hev]; simp; omega
  · rw [auditRun_suffix calls]; simp; omega
  · rw [history_suffix hist]; simp; omega

/-- C9 witness: two concrete stored events, two audit calls (one inactive),
three history events; the caps hold, the stores retain everything below the
cap, and the index for correlation id c1 lists exactly the matching event. -/
theorem retention_caps_fifo_eviction_witness :
    (([⟨"e1", "t1", "c1", "p"⟩, ⟨"e2", "t1", "", "q"⟩] : List SEv).foldl
      estore esInit).events.length ≤ maxEvents ∧
    (([⟨"e1", "t1", "c1", "p"⟩, ⟨"e2", "t1", "", "q"⟩] : List SEv).foldl
      estore esInit).events =
      ([⟨"e1", "t1", "c1", "p"⟩, ⟨"e2", "t1", "", "q"⟩] : List SEv).drop
        (([⟨"e1", "t1", "c1", "p"⟩, ⟨"e2", "t1", "", "q"⟩] : List SEv).length -
          maxEvents) ∧
    (([⟨"e1", "t1", "c1", "p"⟩, ⟨"e2", "t1", "", "q"⟩] : List SEv).foldl
      estore esInit).byCorr "c1" =
      (([⟨"e1", "t1", "c1", "p"⟩, ⟨"e2", "t1", "", "q"⟩] : List SEv).foldl
        estore esInit).events.filter (fun x => x.correlationId == "c1") ∧
    (auditRun [(true, "a1"), (false, "a2")]).length ≤ maxLogs ∧
    ([.mk "t" "p1" "c", .mk "t" "p2" "c", .mk "t" "p3" "c"] : List BusEv).foldl
        addToHistory [] =
      ([.mk "t" "p1" "c", .mk "t" "p2" "c", .mk "t" "p3" "c"] : List BusEv).drop
        (([.mk "t" "p1" "c", .mk "t" "p2" "c", .mk "t" "p3" "c"] :
          List BusEv).length - maxHistorySize) :=
  ⟨(retention_caps_fifo_eviction [⟨"e1", "t1", "c1", "p"⟩, ⟨"e2", "t1", "", "q"⟩]
      [(true, "a1"), (false, "a2")] [.mk "t" "p1" "c", .mk "t" "p2" "c", .mk "t" "p3" "c"]).1,
   (retention_caps_fifo_eviction [⟨"e1", "t1", "c1", "p"⟩, ⟨"e2", "t1", "", "q"⟩]
      [(true, "a1"), (false, "a2")] [.mk "t" "p1" "c", .mk "t" "p2" "c", .mk "t" "p3" "c"]).2.1,
   (retention_caps_fifo_eviction [⟨"e1", "t1", "c1", "p"⟩, ⟨"e2", "t1", "", "q"⟩]
      [(true, "a1"), (false, "a2")] [.mk "t" "p1" "c", .mk "t" "p2" "c", .mk "t" "p3" "c"]).2.2.2.1
      "c1" (by decide),
   (retention_caps_fifo_eviction [⟨"e1", "t1", "c1", "p"⟩, ⟨"e2", "t1", "", "q"⟩]
      [(true, "a1"), (false, "a2")] [.mk "t" "p1" "c", .mk "t" "p2" "c", .mk "t" "p3" "c"]).2.2.2.2.1,
   (retention_caps_fifo_eviction [⟨"e1", "t1", "c1", "p"⟩, ⟨"e2", "t1", "", "q"⟩]
      [(true, "a1"), (false, "a2")] [.mk "t" "p1" "c", .mk "t" "p2" "c", .mk "t" "p3" "c"]).2.2.2.2.2.2.2⟩
